import Mathlib

/-!
Verification development for the researchportal document pipeline
(storage layer `DatabaseStorage` and the HTTP route layer `registerRoutes`
with its background `processDocument` worker).

JavaScript strings are modelled as Lean `String`s whose operations act on the
underlying character list (`.data`); this coincides with JS semantics on the
ASCII texts used throughout.  The external collaborators (Postgres full-text
search, the Anthropic text-generation service, the object store, JS
`JSON.parse`) are modelled as explicit parameters or as executable Lean
functions, as documented at each definition.
-/

namespace RP

set_option maxRecDepth 100000

/-- JS `s.slice(a, b)` for `0 ≤ a ≤ b`: the characters in positions `[a, b)`. -/
def jsSlice (s : String) (a b : Nat) : String :=
  ⟨(s.data.take b).drop a⟩

/-- JS `s.length` (code units; identical to character count on the ASCII data
used in this development). -/
def jsLen (s : String) : Nat := s.data.length

/-- Truthiness of JS `s.trim()`: true iff some character is not whitespace. -/
def jsTrimNonempty (s : String) : Bool :=
  s.data.any (fun c => !c.isWhitespace)

/-- JS `String.prototype.toLowerCase` (ASCII). -/
def jsLower (s : String) : String := ⟨s.data.map Char.toLower⟩

/-- JS `s.trim()` : drop whitespace from both ends. -/
def jsTrim (s : String) : String :=
  ⟨((s.data.dropWhile Char.isWhitespace).reverse.dropWhile Char.isWhitespace).reverse⟩

/-- Substring test: does `sub` occur contiguously inside `s`?  Models JS
`String.prototype.includes` and the SQL `LIKE '%sub%'` pattern (metacharacters
in the needle are not modelled; no query in the claims uses them). -/
def containsSub (s sub : String) : Bool :=
  (List.range (s.data.length + 1)).any (fun i => sub.data.isPrefixOf (s.data.drop i))

/-- Case-insensitive substring test, modelling SQL `ILIKE '%sub%'`. -/
def containsCI (s sub : String) : Bool :=
  containsSub (jsLower s) (jsLower sub)

/-- Truthiness of an optional JS string (`undefined`/`null`/`""` are falsy). -/
def jsTruthyOpt : Option String → Bool
  | none => false
  | some s => !(s == "")

/-- JS `Array.from(new Set(l))` : deduplicate keeping first occurrences. -/
def dedupAcc (seen : List Nat) : List Nat → List Nat
  | [] => []
  | a :: as => if seen.contains a then dedupAcc seen as else a :: dedupAcc (a :: seen) as

def jsSetDedup (l : List Nat) : List Nat := dedupAcc [] l

/-! ## Data model

Row shapes from `@shared/schema` as used by the code under verification.
`Embedding` is the chunk record (the source's naming; no vector is computed). -/

structure Document where
  id : Nat
  title : String
  originalFilename : String
  filePath : String
  fileSizeBytes : Nat
  fileType : String
  processingStatus : String
  pageCount : Option Nat
  fullText : Option String
  documentType : Option String
  aiSummary : Option String
  keyTopics : Option (List String)
  sentiment : Option String
  errorMessage : Option String
  uploadDate : Nat
  processedDate : Option Nat
deriving Repr, DecidableEq, Inhabited

structure DocumentPage where
  documentId : Nat
  pageNumber : Nat
  pageText : Option String
deriving Repr, DecidableEq, Inhabited

structure Embedding where
  documentId : Nat
  pageNumber : Nat
  chunkText : String
  chunkIndex : Nat
  tokenCount : Nat
deriving Repr, DecidableEq, Inhabited

/-- The persistent store backing `DatabaseStorage`. -/
structure DB where
  documents : List Document
  pages : List DocumentPage
  embeddings : List Embedding
deriving Repr, DecidableEq, Inhabited

/-! ## Storage layer (`DatabaseStorage`) -/

/-- `getDocument`: `select ... where eq(documents.id, id)`, first row. -/
def getDocument (db : DB) (id : Nat) : Option Document :=
  (db.documents.filter (fun d => d.id = id)).head?

/-- Ascending order on page number, for `orderBy(documentPages.pageNumber)`. -/
def pageNumLe (p q : DocumentPage) : Prop := p.pageNumber ≤ q.pageNumber

instance : DecidableRel pageNumLe := fun p q => Nat.decLe p.pageNumber q.pageNumber

instance : IsTotal DocumentPage pageNumLe :=
  ⟨fun p q => Nat.le_total p.pageNumber q.pageNumber⟩

instance : IsTrans DocumentPage pageNumLe :=
  ⟨fun _ _ _ h h' => Nat.le_trans h h'⟩

/-- `getDocumentPages`: rows of one document ordered by page number. -/
def getDocumentPages (db : DB) (documentId : Nat) : List DocumentPage :=
  List.insertionSort pageNumLe (db.pages.filter (fun p => p.documentId = documentId))

/-- Descending order on upload date, for `orderBy(desc(documents.uploadDate))`. -/
def uploadGe (a b : Document) : Prop := b.uploadDate ≤ a.uploadDate

instance : DecidableRel uploadGe := fun a b => Nat.decLe b.uploadDate a.uploadDate

instance : IsTotal Document uploadGe := ⟨fun a b => Nat.le_total b.uploadDate a.uploadDate⟩

instance : IsTrans Document uploadGe := ⟨fun _ _ _ h h' => Nat.le_trans h' h⟩

/-- The optional filters of `getDocuments`.  A missing (`none`) entry models a
JS `undefined` field; the empty string is falsy in JS and pushes no condition. -/
structure DocFilters where
  type : Option String := none
  status : Option String := none
  search : Option String := none

/-- One document row passes the accumulated `where` conditions of
`getDocuments`. -/
def matchesFilters (f : DocFilters) (d : Document) : Bool :=
  (match f.type with
   | some t => if t = "" ∨ t = "all" then true else d.documentType == some t
   | none => true) &&
  (match f.status with
   | some s => if s = "" ∨ s = "all" then true else d.processingStatus == s
   | none => true) &&
  (match f.search with
   | some q => if q = "" then true else containsCI d.title q || containsCI d.originalFilename q
   | none => true)

/-- `getDocuments`: filtered rows ordered by upload date descending. -/
def getDocuments (db : DB) (f : DocFilters) : List Document :=
  List.insertionSort uploadGe (db.documents.filter (matchesFilters f))

/-- `searchEmbeddings(query, limit)`.  The Postgres predicate
`to_tsvector('english', chunkText) @@ plainto_tsquery('english', query)` is an
external language-aware matcher, taken as the parameter `fts`; the fallback
`ilike '%query%'` over the chunk text is executable. -/
def searchEmbeddings (fts : String → String → Bool) (db : DB) (query : String)
    (limit : Nat) : List Embedding :=
  let results := (db.embeddings.filter (fun e => fts query e.chunkText)).take limit
  if results.length > 0 then results
  else (db.embeddings.filter (fun e => containsCI e.chunkText query)).take limit

/-- Modelled from the spec: the row-level effect of `deleteDocument`
(`db.delete(documents).where(eq(documents.id, id))`) together with the
cascade-delete of the document's pages and chunks.  The cascade is declared in
`@shared/schema`, a repository file that is not under `src/`; the spec states
"Deletion removes the document and cascades to its pages and chunks". -/
def deleteDocumentCascade (db : DB) (id : Nat) : DB :=
  { documents := db.documents.filter (fun d => d.id ≠ id)
    pages := db.pages.filter (fun p => p.documentId ≠ id)
    embeddings := db.embeddings.filter (fun e => e.documentId ≠ id) }

/-! ## Extraction engine and chunk indexer (`processDocument`) -/

/-- Outcome of `new PDFParse({data}).getText()/getInfo()`: either the extracted
text with the reported page total, or a thrown parse error. -/
inductive PdfResult where
  | ok (text : String) (total : Nat)
  | err
deriving Repr, DecidableEq

def pdfFailureText : String :=
  "Failed to extract PDF text. The document may be scanned or image-based."

def spreadsheetPlaceholder : String := "Excel/CSV content extraction not yet implemented."

def imagePlaceholder : String := "Image OCR not yet implemented."

def unsupportedPlaceholder : String := "Unsupported document type for text extraction."

/-- The per-page slicing of the extracted PDF text (lines 952-960): if the text
is non-empty, `pageCount` contiguous slices of `ceil(length / pageCount)`
characters each. -/
def pdfSlices (extractedText : String) (pageCount : Nat) : List String :=
  if jsLen extractedText > 0 then
    let charsPerPage := (jsLen extractedText + pageCount - 1) / pageCount
    (List.range pageCount).map (fun i =>
      jsSlice extractedText (i * charsPerPage)
        (min ((i + 1) * charsPerPage) (jsLen extractedText)))
  else []

/-- Result of the extraction phase: `extractedText`, `pageCount`, `pageTexts`
as mutated by the branch on `document.fileType`. -/
structure ExtractionOut where
  extractedText : String
  pageCount : Nat
  pageTexts : List String
deriving Repr, DecidableEq

/-- The PDF branch: on success, `extractedText = textResult.text || ""` and
`pageCount = info.total || 1` followed by the slicing; on a thrown parse error
the fixed sentinel becomes the single page text and `pageCount` keeps its
initial value 1. -/
def extractPdf : PdfResult → ExtractionOut
  | .ok text total =>
    let pc := if total = 0 then 1 else total
    { extractedText := text, pageCount := pc, pageTexts := pdfSlices text pc }
  | .err =>
    { extractedText := pdfFailureText, pageCount := 1, pageTexts := [pdfFailureText] }

/-- The extraction dispatch on the declared MIME type (lines 943-980). -/
def extractDocument (fileType : String) (pdf : PdfResult) : ExtractionOut :=
  if fileType = "application/pdf" then extractPdf pdf
  else if containsSub fileType "spreadsheet" || containsSub fileType "excel" then
    { extractedText := spreadsheetPlaceholder, pageCount := 1,
      pageTexts := [spreadsheetPlaceholder] }
  else if containsSub fileType "image" then
    { extractedText := imagePlaceholder, pageCount := 1, pageTexts := [imagePlaceholder] }
  else
    { extractedText := unsupportedPlaceholder, pageCount := 1,
      pageTexts := [unsupportedPlaceholder] }

/-- The page rows written by the creation loop of `processDocument`
(lines 983-1001) from loop counter `i` on: a page whose text trims to empty
produces no row; every other page at position `i` produces
`(documentId, i+1, text)`. -/
def pageRowsFrom (documentId i : Nat) : List String → List DocumentPage
  | [] => []
  | t :: ts =>
    if jsTrimNonempty t then
      { documentId := documentId, pageNumber := i + 1, pageText := some t }
        :: pageRowsFrom documentId (i + 1) ts
    else pageRowsFrom documentId (i + 1) ts

/-- The chunk rows written by the same loop, under the same guard: the first
2000 characters of the page text, chunk index `i`, token count
`Math.ceil(pageText.length / 4)` computed from the full page text. -/
def chunkRowsFrom (documentId i : Nat) : List String → List Embedding
  | [] => []
  | t :: ts =>
    if jsTrimNonempty t then
      { documentId := documentId, pageNumber := i + 1, chunkText := jsSlice t 0 2000,
        chunkIndex := i, tokenCount := (jsLen t + 3) / 4 }
        :: chunkRowsFrom documentId (i + 1) ts
    else chunkRowsFrom documentId (i + 1) ts

/-- The rows written by the whole loop (the single guarded loop writes the two
tables in lockstep; it is modelled by the two row lists it produces). -/
def indexPages (documentId : Nat) (pageTexts : List String) :
    List DocumentPage × List Embedding :=
  (pageRowsFrom documentId 0 pageTexts, chunkRowsFrom documentId 0 pageTexts)

/-- Outcome of one `anthropic.messages.create` classification call: the text
content of the first block, a non-text block, or a thrown service error. -/
inductive ClassifyResult where
  | text (s : String)
  | nonText
  | err
deriving Repr, DecidableEq

def validTypes : List String :=
  ["annual_report", "quarterly_earnings", "concall_transcript", "industry_report",
   "research_note", "investor_presentation", "regulatory_filing", "other"]

/-- The classification step (lines 1003-1030): lowercase and trim the returned
token, validate against the taxonomy, default to `"other"` on mismatch,
non-text content or service error. -/
def classify : ClassifyResult → String
  | .text s =>
    let c := jsTrim (jsLower s)
    if validTypes.contains c then c else "other"
  | _ => "other"

/-- The observable outcome of a `processDocument` run that reaches the
extraction phase (the storage download succeeded; all storage writes succeed).
`status`, `fullText`, `pageCount`, `documentType` are the fields of the final
`updateDocument` call; `pages` and `chunks` are the rows written by the loop. -/
structure ProcessOutcome where
  status : String
  fullText : Option String
  pageCount : Option Nat
  documentType : Option String
  pages : List DocumentPage
  chunks : List Embedding
deriving Repr, DecidableEq

def processDocumentRun (documentId : Nat) (fileType : String) (pdf : PdfResult)
    (cls : ClassifyResult) : ProcessOutcome :=
  let ext := extractDocument fileType pdf
  let written := indexPages documentId ext.pageTexts
  { status := "completed"
    fullText := some ext.extractedText
    pageCount := some ext.pageCount
    documentType := some (classify cls)
    pages := written.1
    chunks := written.2 }

/-! ## JSON values and `JSON.parse`

The route layer extracts the first-`{`-to-last-`}` block from the generation
response (`text.match(/\{[\s\S]*\}/)`) and feeds it to JS `JSON.parse`, whose
result is an arbitrary JSON value.  `jsonParse` below is an executable model
of `JSON.parse` (ECMA-404 grammar; numbers are kept as their lexeme). -/

inductive JsonVal where
  | jnull
  | jbool (b : Bool)
  | jnum (lexeme : String)
  | jstr (s : String)
  | jarr (xs : List JsonVal)
  | jobj (fields : List (String × JsonVal))
deriving Inhabited

def obChar : Char := Char.ofNat 123

def cbChar : Char := Char.ofNat 125

def isJsonWsChar (c : Char) : Bool := c == ' ' || c == '\t' || c == '\n' || c == '\r'

def skipJsonWs : List Char → List Char
  | [] => []
  | c :: cs => if isJsonWsChar c then skipJsonWs cs else c :: cs

def hexVal (c : Char) : Nat :=
  if c.isDigit then c.toNat - 48
  else if 'a' ≤ c ∧ c ≤ 'f' then c.toNat - 87
  else c.toNat - 55

def isHexChar (c : Char) : Bool :=
  c.isDigit || ('a' ≤ c && c ≤ 'f') || ('A' ≤ c && c ≤ 'F')

/-- Body of a JSON string literal, after the opening quote: returns the
decoded characters and the remaining input. -/
def parseStrBody : List Char → Option (List Char × List Char)
  | [] => none
  | c :: cs =>
    if c == '"' then some ([], cs)
    else if c == '\\' then
      match cs with
      | [] => none
      | e :: cs2 =>
        if e == '"' || e == '\\' || e == '/' then
          (parseStrBody cs2).map (fun r => (e :: r.1, r.2))
        else if e == 'n' then (parseStrBody cs2).map (fun r => ('\n' :: r.1, r.2))
        else if e == 't' then (parseStrBody cs2).map (fun r => ('\t' :: r.1, r.2))
        else if e == 'r' then (parseStrBody cs2).map (fun r => ('\r' :: r.1, r.2))
        else if e == 'b' then (parseStrBody cs2).map (fun r => (Char.ofNat 8 :: r.1, r.2))
        else if e == 'f' then (parseStrBody cs2).map (fun r => (Char.ofNat 12 :: r.1, r.2))
        else if e == 'u' then
          match cs2 with
          | h1 :: h2 :: h3 :: h4 :: cs3 =>
            if isHexChar h1 && isHexChar h2 && isHexChar h3 && isHexChar h4 then
              (parseStrBody cs3).map (fun r =>
                (Char.ofNat (((hexVal h1 * 16 + hexVal h2) * 16 + hexVal h3) * 16 + hexVal h4)
                  :: r.1, r.2))
            else none
          | _ => none
        else none
    else if c.toNat < 32 then none
    else (parseStrBody cs).map (fun r => (c :: r.1, r.2))

/-- Longest digit run at the head of the input. -/
def spanDigits : List Char → List Char × List Char
  | [] => ([], [])
  | c :: cs =>
    if c.isDigit then
      let r := spanDigits cs
      (c :: r.1, r.2)
    else ([], c :: cs)

/-- JSON integer part: `0`, or a nonzero digit followed by digits. -/
def parseIntPart : List Char → Option (List Char × List Char)
  | [] => none
  | c :: cs =>
    if c == '0' then some ([c], cs)
    else if c.isDigit then
      let r := spanDigits cs
      some (c :: r.1, r.2)
    else none

/-- Optional JSON fraction part. -/
def parseFrac : List Char → Option (List Char × List Char)
  | [] => some ([], [])
  | c :: cs =>
    if c == '.' then
      let r := spanDigits cs
      if r.1.isEmpty then none else some (c :: r.1, r.2)
    else some ([], c :: cs)

/-- Optional JSON exponent part. -/
def parseExp : List Char → Option (List Char × List Char)
  | [] => some ([], [])
  | c :: cs =>
    if c == 'e' || c == 'E' then
      let sgn : List Char × List Char :=
        match cs with
        | d :: t => if d == '+' || d == '-' then ([d], t) else ([], d :: t)
        | [] => ([], [])
      let r := spanDigits sgn.2
      if r.1.isEmpty then none else some (c :: (sgn.1 ++ r.1), r.2)
    else some ([], c :: cs)

/-- A JSON number lexeme. -/
def parseNum (cs : List Char) : Option (List Char × List Char) :=
  let neg : List Char × List Char :=
    match cs with
    | c :: t => if c == '-' then ([c], t) else ([], c :: t)
    | [] => ([], [])
  match parseIntPart neg.2 with
  | none => none
  | some (ip, cs2) =>
    match parseFrac cs2 with
    | none => none
    | some (fp, cs3) =>
      match parseExp cs3 with
      | none => none
      | some (ep, cs4) => some (neg.1 ++ ip ++ fp ++ ep, cs4)

/-- Recursive-descent mode: a value, the members of an object (after `{` and
on a non-`}` character), or the elements of an array (likewise). -/
inductive PMode where
  | val
  | members
  | elems

/-- Result of one `parseJ` call, per mode. -/
inductive PRes where
  | v (x : JsonVal)
  | ms (xs : List (String × JsonVal))
  | es (xs : List JsonVal)

/-- Fuel-indexed recursive-descent recognizer for the JSON grammar. -/
def parseJ : Nat → PMode → List Char → Option (PRes × List Char)
  | 0, _, _ => none
  | f + 1, .val, cs =>
    match skipJsonWs cs with
    | [] => none
    | c :: rest =>
      if c == obChar then
        match skipJsonWs rest with
        | [] => none
        | d :: rest2 =>
          if d == cbChar then some (.v (.jobj []), rest2)
          else
            match parseJ f .members (d :: rest2) with
            | some (.ms xs, rest3) => some (.v (.jobj xs), rest3)
            | _ => none
      else if c == '[' then
        match skipJsonWs rest with
        | [] => none
        | d :: rest2 =>
          if d == ']' then some (.v (.jarr []), rest2)
          else
            match parseJ f .elems (d :: rest2) with
            | some (.es xs, rest3) => some (.v (.jarr xs), rest3)
            | _ => none
      else if c == '"' then
        (parseStrBody rest).map (fun r => (.v (.jstr ⟨r.1⟩), r.2))
      else if c == 't' then
        if "rue".data.isPrefixOf rest then some (.v (.jbool true), rest.drop 3) else none
      else if c == 'f' then
        if "alse".data.isPrefixOf rest then some (.v (.jbool false), rest.drop 4) else none
      else if c == 'n' then
        if "ull".data.isPrefixOf rest then some (.v .jnull, rest.drop 3) else none
      else
        match parseNum (c :: rest) with
        | some (lex, rest2) => some (.v (.jnum ⟨lex⟩), rest2)
        | none => none
  | f + 1, .members, cs =>
    match skipJsonWs cs with
    | [] => none
    | c :: rest =>
      if c == '"' then
        match parseStrBody rest with
        | none => none
        | some (key, rest2) =>
          match skipJsonWs rest2 with
          | [] => none
          | d :: rest3 =>
            if d == ':' then
              match parseJ f .val rest3 with
              | some (.v v, rest4) =>
                match skipJsonWs rest4 with
                | [] => none
                | e :: rest5 =>
                  if e == ',' then
                    match parseJ f .members rest5 with
                    | some (.ms xs, rest6) => some (.ms ((⟨key⟩, v) :: xs), rest6)
                    | _ => none
                  else if e == cbChar then some (.ms [(⟨key⟩, v)], rest5)
                  else none
              | _ => none
            else none
      else none
  | f + 1, .elems, cs =>
    match parseJ f .val cs with
    | some (.v v, rest) =>
      match skipJsonWs rest with
      | [] => none
      | e :: rest2 =>
        if e == ',' then
          match parseJ f .elems rest2 with
          | some (.es xs, rest3) => some (.es (v :: xs), rest3)
          | _ => none
        else if e == ']' then some (.es [v], rest2)
        else none
    | _ => none

/-- Model of JS `JSON.parse`: `some v` when the whole string is a valid JSON
text, `none` when `JSON.parse` throws a `SyntaxError`. -/
def jsonParse (s : String) : Option JsonVal :=
  match parseJ (2 * s.data.length + 2) .val s.data with
  | some (.v v, rest) => if skipJsonWs rest = [] then some v else none
  | _ => none

/-- Index of the last `}` in the input, if any. -/
def lastCbIdx (cs : List Char) : Option Nat :=
  (cs.reverse.findIdx? (fun c => c == cbChar)).map (fun i => cs.length - 1 - i)

/-- The substring matched by `text.match(/\{[\s\S]*\}/)`: from the first `{`
that has a `}` after it, through the last `}` of the whole string; `none` when
the regex has no match. -/
def firstBraceBlock (s : String) : Option String :=
  match s.data.findIdx? (fun c => c == obChar), lastCbIdx s.data with
  | some l, some r => if l < r then some ⟨(s.data.take (r + 1)).drop l⟩ else none
  | _, _ => none

example : firstBraceBlock "hello" = none := by decide

example : firstBraceBlock "{oops}" = some "{oops}" := by decide

example : jsonParse "{oops}" = none := rfl

example : jsonParse "\x7b\x22a\x22: [1, true]\x7d" =
    some (.jobj [("a", .jarr [.jnum "1", .jbool true])]) := rfl

/-- JS property access `v.k` on a parsed JSON value (`undefined` is `none`;
with duplicate keys `JSON.parse` keeps the last occurrence). -/
def jGet (v : JsonVal) (k : String) : Option JsonVal :=
  match v with
  | .jobj fields => ((fields.reverse.find? (fun f => f.1 == k)).map (fun f => f.2))
  | _ => none

/-! ## Route layer (`registerRoutes`) -/

/-- One row of the `/api/search` response. -/
structure SearchResult where
  documentId : Nat
  documentTitle : String
  documentType : Option String
  pageNumber : Nat
  chunkText : String
  score : Nat
deriving Repr, DecidableEq, Inhabited

/-- `doc?.title || "Unknown"`-style defaulting (`""` is falsy). -/
def jsOrDefault (o : Option String) (dflt : String) : String :=
  match o with
  | some s => if s = "" then dflt else s
  | none => dflt

/-- `doc?.documentType || null` (`""` collapses to `null`). -/
def jsOrNull (o : Option String) : Option String :=
  match o with
  | some s => if s = "" then none else some s
  | none => none

/-- The tier-2 fallback of `/api/search` (lines 675-691): document-title /
filename substring matches, at most 10, one pseudo-result each built from the
first page text (or the stored full text) truncated to 300 characters. -/
def searchFallback (db : DB) (query : String) : List SearchResult :=
  ((getDocuments db { search := some query }).take 10).map (fun doc =>
    let pages := getDocumentPages db doc.id
    let s1 : String :=
      match pages.head? with
      | some fp => (match fp.pageText with | some t => jsSlice t 0 300 | none => "")
      | none => ""
    let s2 : String :=
      match doc.fullText with
      | some t => jsSlice t 0 300
      | none => ""
    { documentId := doc.id
      documentTitle := doc.title
      documentType := doc.documentType
      pageNumber := 1
      chunkText := if s1 ≠ "" then s1 else if s2 ≠ "" then s2 else "No preview available"
      score := 1 })

/-- The result mapping of the tier-1 branch of `/api/search` (lines 695-707). -/
def searchTier1Map (db : DB) (embs : List Embedding) : List SearchResult :=
  embs.map (fun emb =>
    let doc := getDocument db emb.documentId
    { documentId := emb.documentId
      documentTitle := jsOrDefault (doc.map (fun d => d.title)) "Unknown"
      documentType := jsOrNull (doc.bind (fun d => d.documentType))
      pageNumber := emb.pageNumber
      chunkText := emb.chunkText
      score := 1 })

def requiredQueryMsg : String := "Query is required"

def requiredQuestionMsg : String := "Question is required"

def failedAnswerMsg : String := "Failed to answer question"

def notFoundMsg : String := "Document not found"

/-- `POST /api/search`.  The boolean records which branch produced the
response: `true` when the document-title fallback ran (the chunk search
returned no rows), `false` when the tier-1 results were returned. -/
def searchRoute (fts : String → String → Bool) (db : DB) (query : String) :
    Except String (List SearchResult × Bool) :=
  if query = "" then .error requiredQueryMsg
  else
    let found := searchEmbeddings fts db query 20
    if found.length = 0 then .ok (searchFallback db query, true)
    else .ok (searchTier1Map db found, false)

/-- The corpus-wide raw-text fallback object
`{answer: text, citations: [], insufficientEvidence: false}` (lines 813-819 /
880-885). -/
def corpusRawObj (g : String) : JsonVal :=
  .jobj [("answer", .jstr g), ("citations", .jarr []), ("insufficientEvidence", .jbool false)]

/-- The document-scoped raw-text fallback `{answer: text, citations: []}`
(line 652). -/
def docRawObj (g : String) : JsonVal :=
  .jobj [("answer", .jstr g), ("citations", .jarr [])]

/-- Processing of the generation response in `/api/qa/ask` (both branches):
no brace block → raw-text fallback object; otherwise `JSON.parse` of the
block, whose thrown `SyntaxError` (`none`) the caller turns into a 500. -/
def corpusHandleGen (g : String) : Option JsonVal :=
  match firstBraceBlock g with
  | none => some (corpusRawObj g)
  | some b => jsonParse b

/-- Processing of the generation response in `/api/documents/:id/ask`. -/
def docHandleGen (g : String) : Option JsonVal :=
  match firstBraceBlock g with
  | none => some (docRawObj g)
  | some b => jsonParse b

/-- One row of `qa_history` as written by `createQaHistory`. -/
structure QaHistoryEntry where
  question : String
  answer : Option JsonVal
  citations : Option JsonVal
  documentIds : List Nat

/-- One entry of the `allContent` accumulator of the `/api/qa/ask` fallback
branch (lines 741-763). -/
structure ContentItem where
  documentId : Nat
  documentTitle : String
  pageNumber : Nat
  chunkText : String
deriving Repr, DecidableEq, Inhabited

/-- The `allContent` contribution of one document: its pages with truthy text,
plus its full text as a pseudo-page-1 when the document has no page rows at
all. -/
def contentOfDoc (db : DB) (doc : Document) : List ContentItem :=
  let pages := getDocumentPages db doc.id
  let fromPages := pages.filterMap (fun p =>
    match p.pageText with
    | some t =>
      if t = "" then none
      else some { documentId := doc.id, documentTitle := doc.title,
                  pageNumber := p.pageNumber, chunkText := t }
    | none => none)
  let extra :=
    if pages.length = 0 then
      match doc.fullText with
      | some t =>
        if t = "" then []
        else [{ documentId := doc.id, documentTitle := doc.title,
                pageNumber := 1, chunkText := t }]
      | none => []
    else []
  fromPages ++ extra

/-- The `allContent` gathering loop of the `/api/qa/ask` fallback branch
(lines 741-763), over the documents in listing order. -/
def gatherContent (db : DB) (docs : List Document) : List ContentItem :=
  docs.flatMap (contentOfDoc db)

def noDocsAnswer : String :=
  "No documents have been uploaded yet. Please upload some documents first."

def noTextAnswer : String :=
  "I cannot answer this question - the documents appear to have no extractable text content."

/-- `POST /api/qa/ask` (lines 717-901).  `genText` is the text content the
generation service returns when (and if) it is called; the prompt built from
the gathered context is sent to that external service and does not otherwise
influence the modelled behaviour.  The result carries the JSON body sent to
the caller, the `qa_history` rows written, and the number of
generation-service calls made.  `.error` marks an error response
(`Question is required` → 400, `Failed to answer question` → 500). -/
def qaAskRoute (fts : String → String → Bool) (db : DB) (question genText : String) :
    Except String (JsonVal × List QaHistoryEntry × Nat) :=
  if question = "" then .error requiredQuestionMsg
  else
    let relevantChunks := searchEmbeddings fts db question 10
    if relevantChunks.length = 0 then
      let allDocs := getDocuments db {}
      if allDocs.length = 0 then
        .ok (.jobj [("answer", .jstr noDocsAnswer), ("citations", .jarr []),
                    ("insufficientEvidence", .jbool true)], [], 0)
      else
        let allContent := gatherContent db (allDocs.take 5)
        if allContent.length = 0 then
          .ok (.jobj [("answer", .jstr noTextAnswer), ("citations", .jarr []),
                      ("insufficientEvidence", .jbool true)], [], 0)
        else
          match corpusHandleGen genText with
          | none => .error failedAnswerMsg
          | some resp =>
            .ok (resp,
                 [{ question := question, answer := jGet resp "answer",
                    citations := jGet resp "citations",
                    documentIds := jsSetDedup (allContent.map (fun c => c.documentId)) }],
                 1)
    else
      match corpusHandleGen genText with
      | none => .error failedAnswerMsg
      | some resp =>
        .ok (resp,
             [{ question := question, answer := jGet resp "answer",
                citations := jGet resp "citations",
                documentIds := jsSetDedup (relevantChunks.map (fun c => c.documentId)) }],
             1)

def noContentAnswer : String :=
  "No text content available in this document to answer your question."

/-- `POST /api/documents/:id/ask` (lines 590-660): 400 on a missing question,
404 on an unknown document, the fixed no-content body when no page has truthy
text, otherwise one generation call whose response is processed by
`docHandleGen` (a thrown `JSON.parse` becomes the 500 error). -/
def docAskRoute (db : DB) (id : Nat) (question genText : String) : Except String JsonVal :=
  if question = "" then .error requiredQuestionMsg
  else
    match getDocument db id with
    | none => .error notFoundMsg
    | some _ =>
      let pages := getDocumentPages db id
      let pagesWithText := pages.filter (fun p => jsTruthyOpt p.pageText)
      if pagesWithText.length = 0 then
        .ok (.jobj [("answer", .jstr noContentAnswer), ("citations", .jarr [])])
      else
        match docHandleGen genText with
        | none => .error failedAnswerMsg
        | some resp => .ok resp

/-- The reset performed by `POST /api/documents/:id/reprocess` on the document
row (lines 447-454): exactly these six fields are written. -/
def reprocessReset (d : Document) : Document :=
  { d with processingStatus := "pending", fullText := none, aiSummary := none,
           keyTopics := none, sentiment := none, errorMessage := none }

/-- `POST /api/documents/:id/reprocess` up to the point where the background
pipeline is retriggered: 404 on an unknown id, otherwise delete the document's
pages and chunks and reset the derived fields. -/
def reprocessRoute (db : DB) (id : Nat) : Except String DB :=
  match getDocument db id with
  | none => .error notFoundMsg
  | some _ =>
    .ok { documents := db.documents.map (fun d => if d.id = id then reprocessReset d else d)
          pages := db.pages.filter (fun p => p.documentId ≠ id)
          embeddings := db.embeddings.filter (fun e => e.documentId ≠ id) }

/-! ## Helper lemmas about the indexing loop -/

lemma chunkRowsFrom_lb (d : Nat) (ts : List String) :
    ∀ k, ∀ e ∈ chunkRowsFrom d k ts, k ≤ e.chunkIndex := by
  induction ts with
  | nil => intro k e he; simp [chunkRowsFrom] at he
  | cons t ts ih =>
    intro k e he
    simp only [chunkRowsFrom] at he
    split at he
    · rcases List.mem_cons.mp he with rfl | he'
      · exact Nat.le_refl k
      · exact Nat.le_of_succ_le (ih (k + 1) e he')
    · exact Nat.le_of_succ_le (ih (k + 1) e he)

lemma pageRowsFrom_lb (d : Nat) (ts : List String) :
    ∀ k, ∀ p ∈ pageRowsFrom d k ts, k + 1 ≤ p.pageNumber := by
  induction ts with
  | nil => intro k p hp; simp [pageRowsFrom] at hp
  | cons t ts ih =>
    intro k p hp
    simp only [pageRowsFrom] at hp
    split at hp
    · rcases List.mem_cons.mp hp with rfl | hp'
      · exact Nat.le_refl (k + 1)
      · exact Nat.le_of_succ_le (ih (k + 1) p hp')
    · exact Nat.le_of_succ_le (ih (k + 1) p hp)

lemma chunkRowsFrom_pairwise (d : Nat) (ts : List String) :
    ∀ k, ((chunkRowsFrom d k ts).map Embedding.chunkIndex).Pairwise (· < ·) := by
  induction ts with
  | nil => intro k; simp [chunkRowsFrom]
  | cons t ts ih =>
    intro k
    simp only [chunkRowsFrom]
    split
    · refine List.pairwise_cons.mpr ⟨?_, ?_⟩
      · intro b hb
        rcases List.mem_map.mp hb with ⟨e, he, rfl⟩
        exact Nat.lt_of_succ_le (chunkRowsFrom_lb d ts (k + 1) e he)
      · exact ih (k + 1)
    · exact ih (k + 1)

lemma pageRowsFrom_pairwise (d : Nat) (ts : List String) :
    ∀ k, ((pageRowsFrom d k ts).map DocumentPage.pageNumber).Pairwise (· < ·) := by
  induction ts with
  | nil => intro k; simp [pageRowsFrom]
  | cons t ts ih =>
    intro k
    simp only [pageRowsFrom]
    split
    · refine List.pairwise_cons.mpr ⟨?_, ?_⟩
      · intro b hb
        rcases List.mem_map.mp hb with ⟨p, hp, rfl⟩
        exact Nat.lt_of_succ_le (pageRowsFrom_lb d ts (k + 1) p hp)
      · exact ih (k + 1)
    · exact ih (k + 1)

lemma chunkRowsFrom_len_le (d : Nat) (ts : List String) :
    ∀ k, ∀ e ∈ chunkRowsFrom d k ts, jsLen e.chunkText ≤ 2000 := by
  induction ts with
  | nil => intro k e he; simp [chunkRowsFrom] at he
  | cons t ts ih =>
    intro k e he
    simp only [chunkRowsFrom] at he
    split at he
    · rcases List.mem_cons.mp he with rfl | he'
      · show jsLen (jsSlice t 0 2000) ≤ 2000
        simp only [jsLen, jsSlice, List.drop_zero, List.length_take]
        omega
      · exact ih (k + 1) e he'
    · exact ih (k + 1) e he

lemma chunkRowsFrom_filter_eq (d : Nat) :
    ∀ (ts : List String) (k i : Nat) (h : i < ts.length),
      jsTrimNonempty ts[i] = true →
      (chunkRowsFrom d k ts).filter (fun e => e.chunkIndex == k + i) =
        [{ documentId := d, pageNumber := k + i + 1, chunkText := jsSlice ts[i] 0 2000,
           chunkIndex := k + i, tokenCount := (jsLen ts[i] + 3) / 4 }] := by
  intro ts
  induction ts with
  | nil => intro k i h; exact absurd h (Nat.not_lt_zero i)
  | cons t ts ih =>
    intro k i h hnb
    cases i with
    | zero =>
      simp only [List.getElem_cons_zero] at hnb ⊢
      simp only [Nat.add_zero]
      have hrest : (chunkRowsFrom d (k + 1) ts).filter (fun e => e.chunkIndex == k) = [] := by
        refine List.filter_eq_nil_iff.mpr ?_
        intro e he
        have := chunkRowsFrom_lb d ts (k + 1) e he
        simp only [beq_iff_eq]
        omega
      simp [chunkRowsFrom, hnb, List.filter_cons, hrest]
    | succ i' =>
      have h' : i' < ts.length := by
        simpa [Nat.succ_lt_succ_iff] using h
      have hnb' : jsTrimNonempty ts[i'] = true := by
        simpa using hnb
      have heq : k + (i' + 1) = (k + 1) + i' := by omega
      simp only [List.getElem_cons_succ] at hnb ⊢
      simp only [chunkRowsFrom]
      split
      · simp only [List.filter_cons, beq_iff_eq]
        rw [if_neg (by omega), heq]
        exact ih (k + 1) i' h' hnb'
      · rw [heq]
        exact ih (k + 1) i' h' hnb'

lemma pageRowsFrom_dense (d : Nat) (ts : List String) :
    ∀ k, ts.all jsTrimNonempty = true →
      (pageRowsFrom d k ts).map DocumentPage.pageNumber = List.range' (k + 1) ts.length := by
  induction ts with
  | nil => intro k _; simp [pageRowsFrom]
  | cons t ts ih =>
    intro k hall
    rcases List.all_eq_true.mp hall t (List.mem_cons_self t ts) with ht
    have hall' : ts.all jsTrimNonempty = true := by
      refine List.all_eq_true.mpr ?_
      intro x hx
      exact List.all_eq_true.mp hall x (List.mem_cons_of_mem t hx)
    simp only [pageRowsFrom, ht, if_true, List.map_cons, List.length_cons, List.range'_succ]
    exact congrArg (List.cons (k + 1)) (ih (k + 1) hall')

def pdfMime : String := "application/pdf"

/-- A 2004-character page text. -/
def bigPage : String := ⟨List.replicate 2004 'a'⟩

/-! ## Claim C2 -/

/-- Claim C2, counterexample (corrected): for a 2004-character page the code
stores `tokenCount = ceil(pageText.length / 4) = 501`, not
`ceil(chunkText.length / 4) = 500` as the claim states — the chunk text is
truncated to 2000 characters but the token count is computed from the full
page text. -/
theorem C2_counterexample :
    ((indexPages 0 [bigPage]).2.map Embedding.tokenCount = [501]) ∧
    ((indexPages 0 [bigPage]).2.map (fun e => (jsLen e.chunkText + 3) / 4) = [500]) := by
  have hnb : jsTrimNonempty bigPage = true := by
    show (List.replicate 2004 'a').any (fun c => !c.isWhitespace) = true
    exact List.any_eq_true.mpr ⟨'a', List.mem_replicate.mpr ⟨by decide, rfl⟩, by decide⟩
  have hlen : jsLen bigPage = 2004 := by
    show (List.replicate 2004 'a').length = 2004
    simp
  have hslice : jsLen (jsSlice bigPage 0 2000) = 2000 := by
    show (((List.replicate 2004 'a').take 2000).drop 0).length = 2000
    simp
  have hrows : chunkRowsFrom 0 0 [bigPage] =
      [{ documentId := 0, pageNumber := 1, chunkText := jsSlice bigPage 0 2000,
         chunkIndex := 0, tokenCount := (jsLen bigPage + 3) / 4 }] := by
    simp only [chunkRowsFrom, hnb, if_true]
  constructor
  · show (chunkRowsFrom 0 0 [bigPage]).map Embedding.tokenCount = [501]
    rw [hrows, List.map_cons, List.map_nil, hlen]
  · show (chunkRowsFrom 0 0 [bigPage]).map (fun e => (jsLen e.chunkText + 3) / 4) = [500]
    rw [hrows, List.map_cons, List.map_nil]
    simp only [hslice]

/-- Claim C2 as amended: for every page that is non-empty after trimming,
exactly one chunk row carries its 0-based position as chunk index; its text is
the first 2000 characters of the page text and its token count is
`ceil(pageText.length / 4)` of the full page text. -/
theorem C2_amended (d : Nat) (ts : List String) (i : Nat) (h : i < ts.length)
    (hnb : jsTrimNonempty ts[i] = true) :
    ((indexPages d ts).2.filter (fun e => e.chunkIndex == i)) =
      [{ documentId := d, pageNumber := i + 1, chunkText := jsSlice ts[i] 0 2000,
         chunkIndex := i, tokenCount := (jsLen ts[i] + 3) / 4 }] := by
  have := chunkRowsFrom_filter_eq d ts 0 i h hnb
  simpa [indexPages] using this

/-- Witness for `C2_amended` at a concrete input. -/
theorem C2_amended_witness :
    ((indexPages 0 ["hi"]).2.filter (fun e => e.chunkIndex == 0)) =
      [{ documentId := 0, pageNumber := 1, chunkText := jsSlice "hi" 0 2000,
         chunkIndex := 0, tokenCount := (jsLen "hi" + 3) / 4 }] :=
  C2_amended 0 ["hi"] 0 (by decide) (by decide)

/-! ## Claim C3 -/

/-- Claim C3, counterexample (corrected): a successfully parsed 2-page PDF
whose extracted text is `"  b"` produces a single chunk with chunk index 1
(the whitespace-only first slice is skipped), so the per-document chunk-index
sequence is not `0, 1, 2, …`. -/
theorem C3_counterexample :
    ((processDocumentRun 7 pdfMime (.ok "  b" 2) .err).chunks.map Embedding.chunkIndex = [1]) ∧
    (processDocumentRun 7 pdfMime (.ok "  b" 2) .err).chunks.map Embedding.chunkIndex ≠
      List.range ((processDocumentRun 7 pdfMime (.ok "  b" 2) .err).chunks.length) := by
  constructor
  · rfl
  · decide

/-- Claim C3 as amended: chunk texts never exceed 2000 characters, and the
chunk indices of a processing run are strictly increasing — but they can skip
values (and need not start at 0) because whitespace-only pages produce no
chunk while the index follows the page position. -/
theorem C3_amended (d : Nat) (ts : List String) :
    (∀ e ∈ (indexPages d ts).2, jsLen e.chunkText ≤ 2000) ∧
    ((indexPages d ts).2.map Embedding.chunkIndex).Pairwise (· < ·) :=
  ⟨fun e he => chunkRowsFrom_len_le d ts 0 e he, chunkRowsFrom_pairwise d ts 0⟩

/-- Witness for `C3_amended` at a concrete input. -/
theorem C3_amended_witness :
    jsLen ({ documentId := 0, pageNumber := 1, chunkText := "hi", chunkIndex := 0,
             tokenCount := 1 } : Embedding).chunkText ≤ 2000 :=
  (C3_amended 0 ["hi"]).1 _ (by decide)

/-! ## Claim C4 -/

/-- Claim C4, counterexample (corrected): a successfully parsed 2-page PDF
with extracted text `"  ab"` stores exactly one page, numbered 2 — the page
numbers are not dense starting at 1. -/
theorem C4_counterexample :
    ((processDocumentRun 7 pdfMime (.ok "  ab" 2) .err).pages.map DocumentPage.pageNumber
      = [2]) ∧
    (processDocumentRun 7 pdfMime (.ok "  ab" 2) .err).pages.map DocumentPage.pageNumber ≠
      List.range' 1 (processDocumentRun 7 pdfMime (.ok "  ab" 2) .err).pages.length := by
  constructor
  · rfl
  · decide

/-- Claim C4 as amended: after a successful extraction the stored page numbers
are strictly increasing (hence unique), and they are exactly `1, …, k` when
every extracted page text is non-blank; whitespace-only page texts are skipped
and leave gaps. -/
theorem C4_amended (d : Nat) (ft text : String) (total : Nat) (cls : ClassifyResult) :
    (((processDocumentRun d ft (.ok text total) cls).pages.map
        DocumentPage.pageNumber).Pairwise (· < ·)) ∧
    ((extractDocument ft (.ok text total)).pageTexts.all jsTrimNonempty = true →
      (processDocumentRun d ft (.ok text total) cls).pages.map DocumentPage.pageNumber =
        List.range' 1 (extractDocument ft (.ok text total)).pageTexts.length) :=
  ⟨pageRowsFrom_pairwise d (extractDocument ft (.ok text total)).pageTexts 0,
   fun hall => pageRowsFrom_dense d (extractDocument ft (.ok text total)).pageTexts 0 hall⟩

/-- Witness for `C4_amended` at a concrete input: a 2-page PDF with text
`"ab"` yields pages numbered exactly `[1, 2]`. -/
theorem C4_amended_witness :
    (processDocumentRun 0 pdfMime (.ok "ab" 2) .err).pages.map DocumentPage.pageNumber =
      List.range' 1 (extractDocument pdfMime (.ok "ab" 2)).pageTexts.length :=
  (C4_amended 0 pdfMime "ab" 2 .err).2 (by decide)

/-! ## Claim C6 -/

/-- Claim C6 (confirmed): when PDF parsing throws, the run stores exactly one
page carrying the fixed failure sentinel (with one matching chunk) and the
document still reaches `completed` — the parse failure alone never marks it
`failed`. -/
theorem C6_confirmed (d : Nat) (cls : ClassifyResult) :
    (processDocumentRun d pdfMime .err cls).status = "completed" ∧
    (processDocumentRun d pdfMime .err cls).pages =
      [{ documentId := d, pageNumber := 1, pageText := some pdfFailureText }] ∧
    (processDocumentRun d pdfMime .err cls).chunks.length = 1 :=
  ⟨rfl, rfl, rfl⟩

/-! ## Claim C7 -/

/-- Claim C7 (confirmed; cascade modelled from the spec, its declaration lives
in `@shared/schema` outside `src/`): deleting a document removes its row and
every page and chunk row referencing its id, while records of other documents
survive untouched. -/
theorem C7_confirmed (db : DB) (id : Nat) :
    (∀ d ∈ (deleteDocumentCascade db id).documents, d.id ≠ id) ∧
    (∀ p ∈ (deleteDocumentCascade db id).pages, p.documentId ≠ id) ∧
    (∀ e ∈ (deleteDocumentCascade db id).embeddings, e.documentId ≠ id) ∧
    (∀ d ∈ db.documents, d.id ≠ id → d ∈ (deleteDocumentCascade db id).documents) ∧
    (∀ p ∈ db.pages, p.documentId ≠ id → p ∈ (deleteDocumentCascade db id).pages) ∧
    (∀ e ∈ db.embeddings, e.documentId ≠ id → e ∈ (deleteDocumentCascade db id).embeddings) := by
  refine ⟨?_, ?_, ?_, ?_, ?_, ?_⟩ <;> intro x hx <;>
    simp [deleteDocumentCascade] at hx ⊢ <;> tauto

/-- Small documents for concrete witnesses. -/
def mkDoc (id : Nat) (title : String) (upload : Nat) : Document :=
  { id := id, title := title, originalFilename := title, filePath := "/objects/x",
    fileSizeBytes := 10, fileType := "application/pdf", processingStatus := "completed",
    pageCount := some 1, fullText := some "full text", documentType := none,
    aiSummary := none, keyTopics := none, sentiment := none, errorMessage := none,
    uploadDate := upload, processedDate := none }

def dbW : DB :=
  { documents := [mkDoc 1 "alpha" 3, mkDoc 2 "beta" 5]
    pages := [{ documentId := 1, pageNumber := 1, pageText := some "p1" },
              { documentId := 2, pageNumber := 1, pageText := some "p2" }]
    embeddings := [{ documentId := 1, pageNumber := 1, chunkText := "p1", chunkIndex := 0,
                     tokenCount := 1 },
                   { documentId := 2, pageNumber := 1, chunkText := "p2", chunkIndex := 0,
                     tokenCount := 1 }] }

/-- Witness for `C7_confirmed` at a concrete store: after deleting document 1,
document 2's page row survives. -/
theorem C7_confirmed_witness :
    ({ documentId := 2, pageNumber := 1, pageText := some "p2" } : DocumentPage) ∈
      (deleteDocumentCascade dbW 1).pages :=
  (C7_confirmed dbW 1).2.2.2.2.1 _ (by decide) (by decide)

/-! ## Claim C10 -/

/-- Claim C10 (confirmed): the reprocess reset writes exactly
`processingStatus`, `fullText`, `aiSummary`, `keyTopics`, `sentiment` and
`errorMessage`; every other field of the document row — in particular
`documentType`, `pageCount`, `title`, `filePath`, `fileSizeBytes` and
`processedDate` — keeps its previous value. -/
theorem C10_confirmed (d : Document) :
    (reprocessReset d).processingStatus = "pending" ∧
    (reprocessReset d).fullText = none ∧
    (reprocessReset d).aiSummary = none ∧
    (reprocessReset d).keyTopics = none ∧
    (reprocessReset d).sentiment = none ∧
    (reprocessReset d).errorMessage = none ∧
    (reprocessReset d).id = d.id ∧
    (reprocessReset d).title = d.title ∧
    (reprocessReset d).originalFilename = d.originalFilename ∧
    (reprocessReset d).filePath = d.filePath ∧
    (reprocessReset d).fileSizeBytes = d.fileSizeBytes ∧
    (reprocessReset d).fileType = d.fileType ∧
    (reprocessReset d).pageCount = d.pageCount ∧
    (reprocessReset d).documentType = d.documentType ∧
    (reprocessReset d).uploadDate = d.uploadDate ∧
    (reprocessReset d).processedDate = d.processedDate :=
  ⟨rfl, rfl, rfl, rfl, rfl, rfl, rfl, rfl, rfl, rfl, rfl, rfl, rfl, rfl, rfl, rfl⟩

/-! ## Claim C1 -/

/-- A full-text matcher that matches everything (a query every chunk hits). -/
def ftsAny : String → String → Bool := fun _ _ => true

/-- A full-text matcher that matches nothing (e.g. a stop-word-only query,
for which `plainto_tsquery('english', q)` is the empty query). -/
def ftsNone : String → String → Bool := fun _ _ => false

/-- Claim C1, counterexample (corrected): the generation response `"{oops}"`
is not parseable JSON, yet both the corpus-wide and the document-scoped ask
surface the 500 error response instead of falling back to raw text — the
raw-text fallback only covers responses with no `{...}` block at all. -/
theorem C1_counterexample :
    jsonParse "{oops}" = none ∧
    qaAskRoute ftsAny dbW "q" "{oops}" = .error failedAnswerMsg ∧
    docAskRoute dbW 1 "q" "{oops}" = .error failedAnswerMsg :=
  ⟨rfl, rfl, rfl⟩

/-- Claim C1 as amended: when the generation response contains no `{...}`
block, the response handler substitutes the raw text as the answer with empty
citations (`insufficientEvidence: false` for corpus-wide asks) and neither ask
route can return the 500 `Failed to answer question` error; a brace block that
fails `JSON.parse`, however, is surfaced as that error. -/
theorem C1_amended (fts : String → String → Bool) (db : DB) (i : Nat) (q g : String)
    (hg : firstBraceBlock g = none) :
    corpusHandleGen g = some (corpusRawObj g) ∧
    docHandleGen g = some (docRawObj g) ∧
    qaAskRoute fts db q g ≠ .error failedAnswerMsg ∧
    docAskRoute db i q g ≠ .error failedAnswerMsg := by
  have hc : corpusHandleGen g = some (corpusRawObj g) := by
    simp [corpusHandleGen, hg]
  have hd : docHandleGen g = some (docRawObj g) := by
    simp [docHandleGen, hg]
  have hmsg : requiredQuestionMsg ≠ failedAnswerMsg := by decide
  have hnf : notFoundMsg ≠ failedAnswerMsg := by decide
  refine ⟨hc, hd, ?_, ?_⟩
  · intro hcon
    simp only [qaAskRoute, hc] at hcon
    split at hcon
    · exact hmsg (Except.error.inj hcon)
    · split at hcon
      · split at hcon
        · cases hcon
        · split at hcon
          · cases hcon
          · cases hcon
      · cases hcon
  · intro hcon
    simp only [docAskRoute, hd] at hcon
    split at hcon
    · exact hmsg (Except.error.inj hcon)
    · split at hcon
      · exact hnf (Except.error.inj hcon)
      · split at hcon
        · cases hcon
        · cases hcon

/-- Witness for `C1_amended` at a concrete input. -/
theorem C1_amended_witness :
    corpusHandleGen "plain answer" = some (corpusRawObj "plain answer") ∧
    docHandleGen "plain answer" = some (docRawObj "plain answer") ∧
    qaAskRoute ftsAny dbW "q" "plain answer" ≠ .error failedAnswerMsg ∧
    docAskRoute dbW 1 "q" "plain answer" ≠ .error failedAnswerMsg :=
  C1_amended ftsAny dbW 1 "q" "plain answer" (by decide)

/-! ## Claim C5 -/

/-- Claim C5, counterexample (corrected): for the query `"p1"` under a
full-text matcher that matches nothing, the structured full-text search over
chunks returns the empty set, yet the document-title fallback does not run —
`searchEmbeddings`' internal `ILIKE` fallback over chunk text finds the chunk
first and the route returns it as a tier-1 result. -/
theorem C5_counterexample :
    ((dbW.embeddings.filter (fun e => ftsNone "p1" e.chunkText)) = []) ∧
    searchRoute ftsNone dbW "p1" =
      .ok ([{ documentId := 1, documentTitle := "alpha", documentType := none,
              pageNumber := 1, chunkText := "p1", score := 1 }], false) :=
  ⟨rfl, rfl⟩

/-- Claim C5 as amended: the document-title fallback runs if and only if the
chunk search — the structured full-text query *together with its internal
substring fallback over chunk text* — returns the empty set, and the fallback
never returns more than 10 document-derived pseudo-results. -/
theorem C5_amended (fts : String → String → Bool) (db : DB) (q : String) (hq : q ≠ "") :
    ((∃ r, searchRoute fts db q = .ok (r, true)) ↔ searchEmbeddings fts db q 20 = []) ∧
    (∀ r, searchRoute fts db q = .ok (r, true) → r.length ≤ 10) := by
  constructor
  · simp only [searchRoute, if_neg hq]
    by_cases h : (searchEmbeddings fts db q 20).length = 0
    · rw [if_pos h]
      constructor
      · intro _
        exact List.length_eq_zero.mp h
      · intro _
        exact ⟨_, rfl⟩
    · rw [if_neg h]
      constructor
      · rintro ⟨r, hr⟩
        simp at hr
      · intro hse
        exact absurd (by rw [hse]; rfl) h
  · intro r hr
    simp only [searchRoute, if_neg hq] at hr
    by_cases h : (searchEmbeddings fts db q 20).length = 0
    · rw [if_pos h] at hr
      have hrf : searchFallback db q = r := congrArg Prod.fst (Except.ok.inj hr)
      rw [← hrf]
      show (((getDocuments db { search := some q }).take 10).map _).length ≤ 10
      rw [List.length_map]
      exact List.length_take_le 10 _
    · rw [if_neg h] at hr
      simp at hr

def dbEmpty : DB := { documents := [], pages := [], embeddings := [] }

/-- Witness for `C5_amended` at a concrete input. -/
theorem C5_amended_witness :
    ((∃ r, searchRoute ftsNone dbEmpty "x" = .ok (r, true)) ↔
      searchEmbeddings ftsNone dbEmpty "x" 20 = []) ∧
    (∀ r, searchRoute ftsNone dbEmpty "x" = .ok (r, true) → r.length ≤ 10) :=
  C5_amended ftsNone dbEmpty "x" (by decide)

/-! ## Claim C8 -/

/-- Claim C8 (confirmed): a corpus-wide ask against a store with no documents
(and hence, by referential integrity, no chunks) returns the fixed
`insufficientEvidence: true` response with an empty citation list, writes no
history, and makes zero generation-service calls. -/
theorem C8_confirmed (fts : String → String → Bool) (db : DB) (q g : String)
    (hq : q ≠ "") (hdocs : db.documents = [])
    (hwf : ∀ e ∈ db.embeddings, e.documentId ∈ db.documents.map Document.id) :
    qaAskRoute fts db q g =
      .ok (.jobj [("answer", .jstr noDocsAnswer), ("citations", .jarr []),
                  ("insufficientEvidence", .jbool true)], [], 0) := by
  have hemb : db.embeddings = [] := by
    rw [hdocs] at hwf
    cases hembs : db.embeddings with
    | nil => rfl
    | cons e es =>
      exact absurd (hwf e (by rw [hembs]; exact List.mem_cons_self e es)) (by simp)
  have hse : searchEmbeddings fts db q 10 = [] := by
    simp [searchEmbeddings, hemb]
  have hgd : getDocuments db {} = [] := by
    simp [getDocuments, hdocs, List.insertionSort]
  simp only [qaAskRoute, if_neg hq, hse, hgd]
  simp

/-- Witness for `C8_confirmed` at the empty store. -/
theorem C8_confirmed_witness :
    qaAskRoute ftsNone dbEmpty "x" "whatever" =
      .ok (.jobj [("answer", .jstr noDocsAnswer), ("citations", .jarr []),
                  ("insufficientEvidence", .jbool true)], [], 0) :=
  C8_confirmed ftsNone dbEmpty "x" "whatever" (by decide) rfl (by simp [dbEmpty])

/-! ## Claim C9 -/

lemma contentOfDoc_id (db : DB) (doc : Document) :
    ∀ c ∈ contentOfDoc db doc, c.documentId = doc.id := by
  intro c hc
  rcases List.mem_append.mp hc with h | h
  · rcases List.mem_filterMap.mp h with ⟨p, _, hsome⟩
    cases hpt : p.pageText with
    | none => rw [hpt] at hsome; cases hsome
    | some t =>
      rw [hpt] at hsome
      simp only at hsome
      by_cases ht : t = ""
      · rw [if_pos ht] at hsome; cases hsome
      · rw [if_neg ht] at hsome
        obtain rfl := Option.some.inj hsome
        rfl
  · split at h
    · cases hft : doc.fullText with
      | none => rw [hft] at h; cases h
      | some t =>
        rw [hft] at h
        simp only at h
        by_cases ht : t = ""
        · rw [if_pos ht] at h; cases h
        · rw [if_neg ht] at h
          obtain rfl := List.mem_singleton.mp h
          rfl
    · cases h

/-- Claim C9 (confirmed): the corpus-wide ask fallback assembles its context
from `gatherContent db ((getDocuments db {}).take 5)` — the document listing
is a permutation of the stored documents ordered by upload date descending,
at most 5 documents are taken, and every context item belongs to one of those
taken documents. -/
theorem C9_confirmed (db : DB) :
    (getDocuments db {}).Perm db.documents ∧
    List.Sorted uploadGe (getDocuments db {}) ∧
    ((getDocuments db {}).take 5).length ≤ 5 ∧
    (∀ c ∈ gatherContent db ((getDocuments db {}).take 5),
      c.documentId ∈ ((getDocuments db {}).take 5).map Document.id) := by
  refine ⟨?_, ?_, ?_, ?_⟩
  · show List.Perm (List.insertionSort uploadGe (db.documents.filter (matchesFilters {})))
      db.documents
    have hfilter : db.documents.filter (matchesFilters {}) = db.documents :=
      List.filter_eq_self.mpr (fun a _ => rfl)
    rw [hfilter]
    exact List.perm_insertionSort uploadGe db.documents
  · exact List.sorted_insertionSort uploadGe _
  · exact List.length_take_le 5 _
  · intro c hc
    rcases List.mem_flatMap.mp hc with ⟨doc, hdoc, hcdoc⟩
    rw [contentOfDoc_id db doc c hcdoc]
    exact List.mem_map_of_mem Document.id hdoc

def itemW : ContentItem := { documentId := 2, documentTitle := "beta",
                             pageNumber := 1, chunkText := "p2" }

/-- Witness for `C9_confirmed` at a concrete store. -/
theorem C9_confirmed_witness :
    List.Sorted uploadGe (getDocuments dbW {}) ∧
    itemW.documentId ∈ (((getDocuments dbW {}).take 5).map Document.id) :=
  ⟨(C9_confirmed dbW).2.1, (C9_confirmed dbW).2.2.2 itemW (by decide)⟩

end RP
